import Mathlib

set_option autoImplicit false

namespace PortableScreenshot

/-!
Shallow embedding of `screenshot_tool.py` (PortableScreenshot).

The config store works on Python dictionaries holding JSON values; we embed
Python dicts as association lists of `String × Json` pairs whose key lists are
duplicate-free (as Python dicts are), with Python's lookup, item-assignment and
`(star-star)`-merge semantics.  The JSON (de)serialization library itself is an
external black box per the specification, so the settings file is modelled by
the parse outcome it produces: missing, unparseable (empty or invalid text), or
a parsed JSON value.
-/

/-- JSON values, as produced by Python's `json` module. -/
inductive Json where
  | null
  | bool (b : Bool)
  | num (n : Int)
  | str (s : String)
  | arr (elems : List Json)
  | obj (entries : List (String × Json))

/-- A Python dictionary with string keys, embedded as an association list. -/
abbrev Dict := List (String × Json)

/-- Python `d[k]` lookup (first matching key; embedded dicts are duplicate-free). -/
def dictLookup (m : Dict) (k : String) : Option Json :=
  match m with
  | [] => none
  | (k', v) :: rest => if k' = k then some v else dictLookup rest k

/-- Python `k in d`. -/
def dictContains (m : Dict) (k : String) : Bool :=
  (dictLookup m k).isSome

/-- Python `d[k] = v`: update the entry in place if the key is present,
otherwise append a new entry (insertion order preserved). -/
def dictInsert (m : Dict) (k : String) (v : Json) : Dict :=
  match m with
  | [] => [(k, v)]
  | (k', v') :: rest =>
    if k' = k then (k, v) :: rest else (k', v') :: dictInsert rest k v

/-- Python `\x7b**a, **b\x7d`: start from a copy of `a`, then assign each item of
`b` in order. -/
def dictMerge (a b : Dict) : Dict :=
  b.foldl (fun acc kv => dictInsert acc kv.1 kv.2) a

/-- The keys of an embedded dict. -/
def dictKeys (m : Dict) : List String := m.map Prod.fst

/-- A genuine Python dict never holds the same key twice. -/
abbrev NodupKeys (m : Dict) : Prop := (dictKeys m).Nodup

/-- `DEFAULTS` from `screenshot_tool.py`, parametrized by the home directory
that `Path.home()` reports. -/
def DEFAULTS (home : String) : Dict :=
  [ ("save_directory", Json.str (home ++ "/Desktop")),
    ("format", Json.str "png"),
    ("jpg_quality", Json.num 95) ]

/-- The state of the settings file as the `json` module reports it back:
the file can be absent, present but not valid JSON (which covers the empty
file), or parsed to a JSON value. -/
inductive FileState where
  | missing
  | unparseable
  | parsed (j : Json)

/-- `save_config`: `json.dump(cfg, f, indent=2)` overwrites the settings file
with the serialization of `cfg`; reading it back parses to the same value
(the `json` module is a black-box inverse pair per the specification). -/
def save_config (cfg : Dict) : FileState :=
  .parsed (.obj cfg)

/-- Exceptions that escape `load_config`. -/
abbrev PyError := String

/-- `load_config`: open and parse the settings file; `FileNotFoundError` and
`json.JSONDecodeError` are caught and yield a copy of `DEFAULTS`; a parsed
top-level object is merged over `DEFAULTS`; any other parsed value makes the
dict-merge raise an uncaught `TypeError`. -/
def load_config (home : String) (fs : FileState) : Except PyError Dict :=
  match fs with
  | .missing => .ok (DEFAULTS home)
  | .unparseable => .ok (DEFAULTS home)
  | .parsed (.obj m) => .ok (dictMerge (DEFAULTS home) m)
  | .parsed _ => .error "TypeError: argument of type mapping expected"

/-! ### Association-list lemmas for the config store -/

theorem dictLookup_insert (m : Dict) (k : String) (v : Json) (k' : String) :
    dictLookup (dictInsert m k v) k' = if k = k' then some v else dictLookup m k' := by
  induction m with
  | nil =>
    by_cases h : k = k' <;> simp [dictInsert, dictLookup, h]
  | cons kv rest ih =>
    obtain ⟨k₀, v₀⟩ := kv
    by_cases h₀ : k₀ = k
    · subst h₀
      by_cases h : k₀ = k' <;> simp [dictInsert, dictLookup, h]
    · by_cases h : k₀ = k'
      · subst h
        have hkk : ¬ k = k₀ := fun hc => h₀ hc.symm
        simp [dictInsert, dictLookup, h₀, hkk, ih]
      · simp [dictInsert, dictLookup, h₀, h, ih]

theorem dictLookup_eq_none_of_not_mem (m : Dict) (k : String)
    (h : k ∉ dictKeys m) : dictLookup m k = none := by
  induction m with
  | nil => rfl
  | cons kv rest ih =>
    obtain ⟨k₀, v₀⟩ := kv
    simp only [dictKeys, List.map_cons, List.mem_cons] at h
    push_neg at h
    have h₁ : ¬ k₀ = k := fun hc => h.1 hc.symm
    simp [dictLookup, h₁, ih (by simpa [dictKeys] using h.2)]

theorem dictLookup_mem (m : Dict) (k : String) (v : Json)
    (h : dictLookup m k = some v) : (k, v) ∈ m := by
  induction m with
  | nil => simp [dictLookup] at h
  | cons kv rest ih =>
    obtain ⟨k₀, v₀⟩ := kv
    rw [dictLookup] at h
    split at h
    · rename_i heq
      injection h with hv
      subst heq
      subst hv
      exact List.mem_cons_self _ _
    · exact List.mem_cons_of_mem _ (ih h)

/-- First-of-two option choice, used to phrase merged-dict lookups. -/
def optOr (a b : Option Json) : Option Json :=
  match a with
  | some v => some v
  | none => b

@[simp] theorem optOr_some (v : Json) (b : Option Json) : optOr (some v) b = some v := rfl

@[simp] theorem optOr_none (b : Option Json) : optOr none b = b := rfl

theorem dictMerge_lookup (a b : Dict) (hb : NodupKeys b) (k : String) :
    dictLookup (dictMerge a b) k = optOr (dictLookup b k) (dictLookup a k) := by
  induction b generalizing a with
  | nil => simp [dictMerge, dictLookup]
  | cons kv rest ih =>
    obtain ⟨k₀, v₀⟩ := kv
    have hrest : NodupKeys rest := by
      have := hb
      simp only [NodupKeys, dictKeys, List.map_cons, List.nodup_cons] at this
      exact this.2
    have hk₀ : k₀ ∉ dictKeys rest := by
      have := hb
      simp only [NodupKeys, dictKeys, List.map_cons, List.nodup_cons] at this
      exact this.1
    have hstep : dictMerge a ((k₀, v₀) :: rest) = dictMerge (dictInsert a k₀ v₀) rest := rfl
    rw [hstep, ih _ hrest]
    by_cases h : k₀ = k
    · subst h
      have hnone : dictLookup rest k₀ = none := dictLookup_eq_none_of_not_mem _ _ hk₀
      simp [dictLookup, hnone, dictLookup_insert]
    · cases hr : dictLookup rest k <;>
        simp [dictLookup, h, hr, dictLookup_insert]

/-! ### Claim C1: save then load is an identity on settings objects -/

/-- A settings object for the roundtrip witness: a unicode, backslash-style
save directory more than 200 characters long, plus an extra key. -/
def roundtripCfg : Dict :=
  [ ("save_directory",
      Json.str ("C:\\Users\\截图测试\\" ++ String.mk (List.replicate 200 'a'))),
    ("format", Json.str "jpg"),
    ("jpg_quality", Json.num 50),
    ("theme", Json.str "dark") ]

/-- C1: for every JSON-serializable settings object (a duplicate-free dict
that, per the data model, carries at least the three schema keys — unicode,
backslash-style and arbitrarily long path values included), `save_config`
followed by `load_config` returns a dict equal (as a Python dict: pointwise
equal lookups) to the one saved. -/
theorem save_then_load_roundtrip (home : String) (cfg : Dict)
    (hnd : NodupKeys cfg)
    (hkeys : (DEFAULTS home).all (fun kv => dictContains cfg kv.1) = true) :
    ∃ m, load_config home (save_config cfg) = .ok m ∧
      ∀ k, dictLookup m k = dictLookup cfg k := by
  refine ⟨dictMerge (DEFAULTS home) cfg, rfl, fun k => ?_⟩
  rw [dictMerge_lookup _ _ hnd]
  cases hc : dictLookup cfg k with
  | some v => simp
  | none =>
    cases hd : dictLookup (DEFAULTS home) k with
    | none => simp [hd]
    | some v =>
      exfalso
      have hmem := dictLookup_mem _ _ _ hd
      have hall := (List.all_eq_true.mp hkeys) _ hmem
      simp only [dictContains, hc, Option.isSome_none] at hall
      exact Bool.false_ne_true hall

/-- Witness for C1 at a concrete unicode/backslash/200-plus-character path. -/
theorem save_then_load_roundtrip_witness :
    ∃ m, load_config "/home/user" (save_config roundtripCfg) = .ok m ∧
      ∀ k, dictLookup m k = dictLookup roundtripCfg k :=
  save_then_load_roundtrip "/home/user" roundtripCfg (by decide) (by decide)

/-! ### Claim C6: load falls back to the untouched defaults -/

/-- C6: on a missing settings file, and on an empty or syntactically invalid
one (both surface as `json.JSONDecodeError`), `load_config` returns a dict
equal to the built-in defaults; the embedding is pure, mirroring that the code
only ever returns the fresh copy `dict(DEFAULTS)` and never writes through
`DEFAULTS` itself, so the defaults are equal before and after the call. -/
theorem load_config_defaults_on_failure (home : String) :
    load_config home .missing = .ok (DEFAULTS home) ∧
    load_config home .unparseable = .ok (DEFAULTS home) :=
  ⟨rfl, rfl⟩

/-! ### Claim C7: merge semantics of a settings file with a subset of keys -/

/-- C7: for a settings file parsing to an object `m` (any subset of the schema
keys plus possibly unknown keys), `load_config` returns the defaults overlaid
with `m`: every key present in `m` keeps exactly the file's value, every key
absent from `m` has its default value, and a key is present in the result
exactly when it is present in the defaults or in the file. -/
theorem load_config_partial_merge (home : String) (m : Dict)
    (hm : NodupKeys m) :
    load_config home (.parsed (.obj m)) = .ok (dictMerge (DEFAULTS home) m) ∧
    (∀ k v, dictLookup m k = some v →
      dictLookup (dictMerge (DEFAULTS home) m) k = some v) ∧
    (∀ k, dictLookup m k = none →
      dictLookup (dictMerge (DEFAULTS home) m) k = dictLookup (DEFAULTS home) k) ∧
    (∀ k, (dictLookup (dictMerge (DEFAULTS home) m) k).isSome =
      ((dictLookup (DEFAULTS home) k).isSome || (dictLookup m k).isSome)) := by
  refine ⟨rfl, ?_, ?_, ?_⟩
  · intro k v hv
    rw [dictMerge_lookup _ _ hm, hv]
    rfl
  · intro k hnone
    rw [dictMerge_lookup _ _ hm, hnone]
    rfl
  · intro k
    rw [dictMerge_lookup _ _ hm]
    cases hm' : dictLookup m k <;> cases hd : dictLookup (DEFAULTS home) k <;> rfl

/-- Witness for C7: a file carrying one schema key and one unknown key. -/
theorem load_config_partial_merge_witness :
    let m : Dict := [("format", Json.str "jpg"), ("custom_key", Json.bool true)]
    load_config "/home/user" (.parsed (.obj m)) =
      .ok (dictMerge (DEFAULTS "/home/user") m) ∧
    (∀ k v, dictLookup m k = some v →
      dictLookup (dictMerge (DEFAULTS "/home/user") m) k = some v) ∧
    (∀ k, dictLookup m k = none →
      dictLookup (dictMerge (DEFAULTS "/home/user") m) k =
        dictLookup (DEFAULTS "/home/user") k) ∧
    (∀ k, (dictLookup (dictMerge (DEFAULTS "/home/user") m) k).isSome =
      ((dictLookup (DEFAULTS "/home/user") k).isSome || (dictLookup m k).isSome)) :=
  load_config_partial_merge "/home/user"
    [("format", Json.str "jpg"), ("custom_key", Json.bool true)] (by decide)

/-! ### Claim C9: only missing-file and decode errors are recovered -/

/-- C9: `load_config` catches only `FileNotFoundError` and
`json.JSONDecodeError`; a settings file holding syntactically valid JSON whose
top-level value is not an object (an array, string, number, boolean or null)
makes the dict merge raise an uncaught error instead of returning defaults. -/
theorem load_config_raises_on_non_object (home : String) (j : Json)
    (h : ∀ entries, j ≠ .obj entries) :
    ∃ e, load_config home (.parsed j) = .error e := by
  cases j with
  | obj entries => exact absurd rfl (h entries)
  | null => exact ⟨_, rfl⟩
  | bool b => exact ⟨_, rfl⟩
  | num n => exact ⟨_, rfl⟩
  | str s => exact ⟨_, rfl⟩
  | arr elems => exact ⟨_, rfl⟩

/-- Witness for C9 at a concrete top-level JSON array. -/
theorem load_config_raises_on_non_object_witness :
    ∃ e, load_config "/home/user" (.parsed (.arr [])) = .error e :=
  load_config_raises_on_non_object "/home/user" (.arr [])
    (fun _ h => Json.noConfusion h)

/-! ### Decimal rendering, as `strftime` and Python string formatting do it -/

/-- The decimal digit characters. -/
def digitChar (n : Nat) : Char :=
  if n = 0 then '0' else if n = 1 then '1' else if n = 2 then '2'
  else if n = 3 then '3' else if n = 4 then '4' else if n = 5 then '5'
  else if n = 6 then '6' else if n = 7 then '7' else if n = 8 then '8' else '9'

theorem digitChar_isDigit (n : Nat) : (digitChar n).isDigit = true := by
  unfold digitChar
  repeat' split
  all_goals decide

/-- Fueled most-significant-first decimal digit accumulator (the fuel makes
the definition structurally recursive and kernel-evaluable; any fuel at least
the number being rendered is enough). -/
def natDigitsGo : Nat → Nat → List Char → List Char
  | _, 0, acc => acc
  | 0, _ + 1, acc => acc
  | fuel + 1, n + 1, acc =>
    natDigitsGo fuel ((n + 1) / 10) (digitChar ((n + 1) % 10) :: acc)

/-- The decimal digit string of a natural number, most significant first. -/
def natDigits (n : Nat) : List Char :=
  if n = 0 then ['0'] else natDigitsGo n n []

theorem natDigitsGo_zero (fuel : Nat) (acc : List Char) :
    natDigitsGo fuel 0 acc = acc := by
  cases fuel <;> rfl

theorem natDigitsGo_succ (fuel m : Nat) (acc : List Char) :
    natDigitsGo (fuel + 1) (m + 1) acc =
      natDigitsGo fuel ((m + 1) / 10) (digitChar ((m + 1) % 10) :: acc) := rfl

theorem natDigitsGo_append (n : Nat) : ∀ fuel : Nat, ∀ acc : List Char, n ≤ fuel →
    natDigitsGo fuel n acc = natDigitsGo fuel n [] ++ acc := by
  induction n using Nat.strong_induction_on with
  | _ n ih =>
    intro fuel acc hf
    cases n with
    | zero => rw [natDigitsGo_zero, natDigitsGo_zero, List.nil_append]
    | succ m =>
      cases fuel with
      | zero => omega
      | succ f =>
        have hlt : (m + 1) / 10 < m + 1 := Nat.div_lt_self (Nat.succ_pos m) (by decide)
        have hfd : (m + 1) / 10 ≤ f := by omega
        rw [natDigitsGo_succ, natDigitsGo_succ,
          ih _ hlt f (digitChar ((m + 1) % 10) :: acc) hfd,
          ih _ hlt f [digitChar ((m + 1) % 10)] hfd]
        simp

theorem natDigitsGo_length_le (k : Nat) : ∀ n fuel : Nat, n ≤ fuel → n < 10 ^ k →
    (natDigitsGo fuel n []).length ≤ k := by
  induction k with
  | zero =>
    intro n fuel hf h
    have hn : n = 0 := by simpa using h
    subst hn
    simp [natDigitsGo_zero]
  | succ k ih =>
    intro n fuel hf h
    cases n with
    | zero => simp [natDigitsGo_zero]
    | succ m =>
      cases fuel with
      | zero => omega
      | succ f =>
        have hlt : (m + 1) / 10 < m + 1 := Nat.div_lt_self (Nat.succ_pos m) (by decide)
        have hdiv : (m + 1) / 10 < 10 ^ k := by
          rw [Nat.div_lt_iff_lt_mul (by decide : (0:Nat) < 10)]
          rw [pow_succ] at h
          exact h
        rw [natDigitsGo_succ, natDigitsGo_append _ f _ (by omega)]
        have := ih ((m + 1) / 10) f (by omega) hdiv
        simp only [List.length_append, List.length_singleton]
        omega

theorem natDigitsGo_length_ge (k : Nat) : ∀ n fuel : Nat, n ≤ fuel → 10 ^ k ≤ n →
    k + 1 ≤ (natDigitsGo fuel n []).length := by
  induction k with
  | zero =>
    intro n fuel hf h
    have h0 : 1 ≤ n := by simpa using h
    cases n with
    | zero => omega
    | succ m =>
      cases fuel with
      | zero => omega
      | succ f =>
        have hlt : (m + 1) / 10 < m + 1 := Nat.div_lt_self (Nat.succ_pos m) (by decide)
        rw [natDigitsGo_succ, natDigitsGo_append _ f _ (by omega)]
        simp
  | succ k ih =>
    intro n fuel hf h
    have hpos : 0 < 10 ^ (k + 1) := Nat.pos_pow_of_pos _ (by decide)
    cases n with
    | zero => omega
    | succ m =>
      cases fuel with
      | zero => omega
      | succ f =>
        have hlt : (m + 1) / 10 < m + 1 := Nat.div_lt_self (Nat.succ_pos m) (by decide)
        have hdiv : 10 ^ k ≤ (m + 1) / 10 := by
          rw [Nat.le_div_iff_mul_le (by decide : (0:Nat) < 10)]
          rw [pow_succ] at h
          exact h
        rw [natDigitsGo_succ, natDigitsGo_append _ f _ (by omega)]
        have := ih ((m + 1) / 10) f (by omega) hdiv
        simp only [List.length_append, List.length_singleton]
        omega

theorem natDigitsGo_chars (n : Nat) : ∀ fuel : Nat, ∀ acc : List Char,
    (∀ c ∈ acc, c.isDigit = true) →
    ∀ c ∈ natDigitsGo fuel n acc, c.isDigit = true := by
  induction n using Nat.strong_induction_on with
  | _ n ih =>
    intro fuel acc hacc c hc
    cases n with
    | zero =>
      rw [natDigitsGo_zero] at hc
      exact hacc c hc
    | succ m =>
      cases fuel with
      | zero => exact hacc c hc
      | succ f =>
        have hlt : (m + 1) / 10 < m + 1 := Nat.div_lt_self (Nat.succ_pos m) (by decide)
        rw [natDigitsGo_succ] at hc
        exact ih _ hlt f _
          (fun c' hc' => by
            rcases List.mem_cons.mp hc' with h' | h'
            · subst h'
              exact digitChar_isDigit _
            · exact hacc _ h') c hc

theorem natDigits_length_le (k n : Nat) (hk : 1 ≤ k) (h : n < 10 ^ k) :
    (natDigits n).length ≤ k := by
  unfold natDigits
  split
  · simpa using hk
  · exact natDigitsGo_length_le k n n le_rfl h

theorem natDigits_length_four (n : Nat) (h1 : 1000 ≤ n) (h2 : n ≤ 9999) :
    (natDigits n).length = 4 := by
  have e4 : (10:Nat) ^ 4 = 10000 := by norm_num
  have e3 : (10:Nat) ^ 3 = 1000 := by norm_num
  unfold natDigits
  rw [if_neg (by omega)]
  have hle := natDigitsGo_length_le 4 n n le_rfl (by omega)
  have hge := natDigitsGo_length_ge 3 n n le_rfl (by omega)
  omega

theorem natDigits_chars (n : Nat) : ∀ c ∈ natDigits n, c.isDigit = true := by
  unfold natDigits
  split
  · intro c hc
    simp only [List.mem_singleton] at hc
    subst hc
    decide
  · exact natDigitsGo_chars n n [] (by simp)

/-- Zero-padding to a minimum width, as `strftime` field rendering does. -/
def padNat (w n : Nat) : List Char :=
  List.replicate (w - (natDigits n).length) '0' ++ natDigits n

theorem padNat_length (w n : Nat) (h : (natDigits n).length ≤ w) :
    (padNat w n).length = w := by
  simp only [padNat, List.length_append, List.length_replicate]
  omega

theorem padNat_length_two (n : Nat) (h : n ≤ 99) : (padNat 2 n).length = 2 := by
  have e : (10:Nat) ^ 2 = 100 := by norm_num
  exact padNat_length 2 n (natDigits_length_le 2 n (by omega) (by omega))

theorem padNat_length_four (n : Nat) (h1 : 1000 ≤ n) (h2 : n ≤ 9999) :
    (padNat 4 n).length = 4 :=
  padNat_length 4 n (le_of_eq (natDigits_length_four n h1 h2))

theorem padNat_length_six (n : Nat) (h : n ≤ 999999) : (padNat 6 n).length = 6 := by
  have e : (10:Nat) ^ 6 = 1000000 := by norm_num
  exact padNat_length 6 n (natDigits_length_le 6 n (by omega) (by omega))

theorem padNat_chars (w n : Nat) : ∀ c ∈ padNat w n, c.isDigit = true := by
  intro c hc
  rcases List.mem_append.mp hc with h | h
  · have := List.eq_of_mem_replicate h
    subst this
    decide
  · exact natDigits_chars n c h

/-! ### `generate_filename` -/

/-- A clock reading as `datetime.now()` reports it. -/
structure DateTime where
  year : Nat
  month : Nat
  day : Nat
  hour : Nat
  minute : Nat
  second : Nat
  microsecond : Nat

/-- The field ranges Python's `datetime` guarantees. -/
abbrev DateTime.valid (dt : DateTime) : Prop :=
  1 ≤ dt.month ∧ dt.month ≤ 12 ∧ 1 ≤ dt.day ∧ dt.day ≤ 31 ∧
  dt.hour ≤ 23 ∧ dt.minute ≤ 59 ∧ dt.second ≤ 59 ∧ dt.microsecond ≤ 999999

/-- The typed view of the settings keys the capture pipeline reads
(`cfg['format']`, `cfg['save_directory']`, `cfg.get('jpg_quality', 95)`). -/
structure Cfg where
  format : String
  save_directory : String
  jpg_quality : Int

/-- `datetime.now().strftime("%Y%m%d_%H%M%S_%f")`: four-digit year, two-digit
month, day, hour, minute and second, six-digit microsecond, zero-padded. -/
def strftimeTs (dt : DateTime) : List Char :=
  padNat 4 dt.year ++ padNat 2 dt.month ++ padNat 2 dt.day ++ ['_'] ++
  padNat 2 dt.hour ++ padNat 2 dt.minute ++ padNat 2 dt.second ++ ['_'] ++
  padNat 6 dt.microsecond

/-- `generate_filename`: the strftime output truncated to 22 characters,
wrapped as `Screenshot_<ts>.<format>`; the configured format string is used
verbatim, whatever it holds. -/
def generate_filename (dt : DateTime) (cfg : Cfg) : List Char :=
  "Screenshot_".data ++ (strftimeTs dt).take 22 ++ ('.' :: cfg.format.data)

/-- Characters the specification allows in filenames. -/
def filenameCharOk (c : Char) : Bool :=
  c.isAlpha || c.isDigit || c == '_' || c == '.'

theorem strftimeTs_length (dt : DateTime) (hv : dt.valid)
    (hy1 : 1000 ≤ dt.year) (hy2 : dt.year ≤ 9999) :
    (strftimeTs dt).length = 22 := by
  obtain ⟨h1, h2, h3, h4, h5, h6, h7, h8⟩ := hv
  simp [strftimeTs, List.length_append,
    padNat_length_four dt.year hy1 hy2,
    padNat_length_two dt.month (by omega),
    padNat_length_two dt.day (by omega),
    padNat_length_two dt.hour (by omega),
    padNat_length_two dt.minute (by omega),
    padNat_length_two dt.second (by omega),
    padNat_length_six dt.microsecond (by omega)]

theorem strftimeTs_chars (dt : DateTime) :
    ∀ c ∈ strftimeTs dt, c.isDigit = true ∨ c = '_' := by
  intro c hc
  simp only [strftimeTs, List.append_assoc, List.mem_append, List.mem_singleton] at hc
  rcases hc with h | h | h | h | h | h | h | h | h
  all_goals first
    | exact Or.inl (padNat_chars _ _ _ h)
    | exact Or.inr h

/-! ### Claim C8: filename shape (corrected) -/

/-- A fixed clock reading used for concrete evaluations. -/
def dtW : DateTime := ⟨2026, 2, 24, 14, 30, 52, 123456⟩

/-- C8 counterexample: the code puts the configured format string into the
filename verbatim and the schema leaves it unchecked, so a configuration whose
format holds a space (or any character outside the allowed set) produces a
filename containing a space, contradicting the claim as stated for every
configuration. -/
theorem generate_filename_charset_counterexample :
    ' ' ∈ generate_filename dtW ⟨"p ng", "/tmp", 95⟩ := by
  apply List.mem_append.mpr
  right
  decide

/-- C8 (amended): for every configuration whose format string holds only
ASCII letters, digits and underscores, and every valid clock reading with a
four-digit year, the generated filename begins with `Screenshot_`, ends with
a dot followed by the configured format, holds only characters from
`[A-Za-z0-9_.]`, has exactly one dot and no spaces, and its timestamp is a
15-character date-time component followed by an underscore and a six-digit
sub-second disambiguator. -/
theorem generate_filename_shape (dt : DateTime) (cfg : Cfg)
    (hv : dt.valid) (hy1 : 1000 ≤ dt.year) (hy2 : dt.year ≤ 9999)
    (hfmt : cfg.format.data.all (fun c => c.isAlpha || c.isDigit || c == '_') = true) :
    "Screenshot_".data <+: generate_filename dt cfg ∧
    ('.' :: cfg.format.data) <:+ generate_filename dt cfg ∧
    (∀ c ∈ generate_filename dt cfg, filenameCharOk c = true) ∧
    (generate_filename dt cfg).count '.' = 1 ∧
    ' ' ∉ generate_filename dt cfg ∧
    (∃ datePart subsec : List Char,
      (strftimeTs dt).take 22 = datePart ++ '_' :: subsec ∧
      datePart.length = 15 ∧ subsec.length = 6 ∧
      ∀ c ∈ subsec, c.isDigit = true) := by
  have hts : (strftimeTs dt).take 22 = strftimeTs dt := by
    rw [List.take_of_length_le (le_of_eq (strftimeTs_length dt hv hy1 hy2))]
  have hfmt' : ∀ c ∈ cfg.format.data, c.isAlpha = true ∨ c.isDigit = true ∨ c = '_' := by
    intro c hc
    have := (List.all_eq_true.mp hfmt) c hc
    rcases Bool.or_eq_true_iff.mp this with h | h
    · rcases Bool.or_eq_true_iff.mp h with h' | h'
      · exact Or.inl h'
      · exact Or.inr (Or.inl h')
    · exact Or.inr (Or.inr (by simpa using h))
  refine ⟨?_, ?_, ?_, ?_, ?_, ?_⟩
  · exact List.prefix_append _ _
  · have : generate_filename dt cfg =
        ("Screenshot_".data ++ (strftimeTs dt).take 22) ++ ('.' :: cfg.format.data) := by
      simp [generate_filename]
    rw [this]
    exact List.suffix_append _ _
  · intro c hc
    rcases List.mem_append.mp hc with h | h
    · rcases List.mem_append.mp h with h' | h'
      · have hall : ∀ x ∈ "Screenshot_".data, filenameCharOk x = true := by decide
        exact hall c h'
      · rw [hts] at h'
        rcases strftimeTs_chars dt c h' with h'' | h''
        · simp [filenameCharOk, h'']
        · simp [filenameCharOk, h'']
    · rcases List.mem_cons.mp h with h' | h'
      · simp [filenameCharOk, h']
      · rcases hfmt' c h' with h'' | h'' | h'' <;> simp [filenameCharOk, h'']
  · have hpre : ("Screenshot_".data).count '.' = 0 := by decide
    have htsc : ((strftimeTs dt).take 22).count '.' = 0 := by
      rw [hts, List.count_eq_zero]
      intro hmem
      rcases strftimeTs_chars dt '.' hmem with h | h
      · exact absurd h (by decide)
      · exact absurd h (by decide)
    have hfmtc : (cfg.format.data).count '.' = 0 := by
      rw [List.count_eq_zero]
      intro hmem
      rcases hfmt' '.' hmem with h | h | h
      · exact absurd h (by decide)
      · exact absurd h (by decide)
      · exact absurd h (by decide)
    rw [generate_filename, List.count_append, List.count_append, hpre, htsc,
      List.count_cons, hfmtc]
    simp
  · intro hmem
    rcases List.mem_append.mp hmem with h | h
    · rcases List.mem_append.mp h with h' | h'
      · exact absurd h' (by decide)
      · rw [hts] at h'
        rcases strftimeTs_chars dt ' ' h' with h'' | h''
        · exact absurd h'' (by decide)
        · exact absurd h'' (by decide)
    · rcases List.mem_cons.mp h with h' | h'
      · exact absurd h' (by decide)
      · rcases hfmt' ' ' h' with h'' | h'' | h''
        · exact absurd h'' (by decide)
        · exact absurd h'' (by decide)
        · exact absurd h'' (by decide)
  · obtain ⟨h1, h2, h3, h4, h5, h6, h7, h8⟩ := hv
    refine ⟨padNat 4 dt.year ++ padNat 2 dt.month ++ padNat 2 dt.day ++ ['_'] ++
      padNat 2 dt.hour ++ padNat 2 dt.minute ++ padNat 2 dt.second,
      padNat 6 dt.microsecond, ?_, ?_, ?_, ?_⟩
    · rw [hts]
      simp [strftimeTs]
    · simp [List.length_append,
        padNat_length_four dt.year hy1 hy2,
        padNat_length_two dt.month (by omega),
        padNat_length_two dt.day (by omega),
        padNat_length_two dt.hour (by omega),
        padNat_length_two dt.minute (by omega),
        padNat_length_two dt.second (by omega)]
    · exact padNat_length_six dt.microsecond (by omega)
    · exact padNat_chars _ _

/-- Witness for the amended C8 at a concrete clock reading and format. -/
theorem generate_filename_shape_witness :
    "Screenshot_".data <+: generate_filename dtW ⟨"png", "/tmp", 95⟩ ∧
    ('.' :: ("png":String).data) <:+ generate_filename dtW ⟨"png", "/tmp", 95⟩ ∧
    (∀ c ∈ generate_filename dtW ⟨"png", "/tmp", 95⟩, filenameCharOk c = true) ∧
    (generate_filename dtW ⟨"png", "/tmp", 95⟩).count '.' = 1 ∧
    ' ' ∉ generate_filename dtW ⟨"png", "/tmp", 95⟩ ∧
    (∃ datePart subsec : List Char,
      (strftimeTs dtW).take 22 = datePart ++ '_' :: subsec ∧
      datePart.length = 15 ∧ subsec.length = 6 ∧
      ∀ c ∈ subsec, c.isDigit = true) :=
  generate_filename_shape dtW ⟨"png", "/tmp", 95⟩
    (by constructor <;> simp [dtW]) (by decide) (by decide) (by decide)

/-! ### Claim C10: the 22-character timestamp and total length -/

/-- C10: for a valid clock reading with a four-digit year, the strftime output
is exactly 22 characters, so the `[:22]` truncation removes nothing, the
filename length is exactly 34 plus the length of the configured format, and
the filename is a function of clock reading and configuration alone, so two
calls evaluated at the same microsecond with the same configuration return
identical filenames. -/
theorem generate_filename_length (dt : DateTime) (cfg : Cfg)
    (hv : dt.valid) (hy1 : 1000 ≤ dt.year) (hy2 : dt.year ≤ 9999) :
    (strftimeTs dt).length = 22 ∧
    (strftimeTs dt).take 22 = strftimeTs dt ∧
    (generate_filename dt cfg).length = 34 + cfg.format.length ∧
    generate_filename dt cfg = generate_filename dt cfg := by
  have hlen := strftimeTs_length dt hv hy1 hy2
  have hts : (strftimeTs dt).take 22 = strftimeTs dt :=
    List.take_of_length_le (le_of_eq hlen)
  refine ⟨hlen, hts, ?_, rfl⟩
  have h11 : ("Screenshot_".data).length = 11 := by decide
  have hdl : cfg.format.data.length = cfg.format.length := rfl
  rw [generate_filename, List.length_append, List.length_append, h11, hts, hlen,
    List.length_cons, hdl]
  omega

/-- Witness for C10 at a concrete clock reading and configuration. -/
theorem generate_filename_length_witness :
    (strftimeTs dtW).length = 22 ∧
    (strftimeTs dtW).take 22 = strftimeTs dtW ∧
    (generate_filename dtW ⟨"jpg", "/tmp", 95⟩).length = 34 + ("jpg":String).length ∧
    generate_filename dtW ⟨"jpg", "/tmp", 95⟩ = generate_filename dtW ⟨"jpg", "/tmp", 95⟩ :=
  generate_filename_length dtW ⟨"jpg", "/tmp", 95⟩
    (by constructor <;> simp [dtW]) (by decide) (by decide)

/-! ### Qt geometry and the region-selector mouse-release transition -/

/-- A point in overlay-local coordinates (`event.pos()`). -/
structure QPoint where
  x : Int
  y : Int

/-- Qt5's `QRect` internals: left `x1`, top `y1`, right `x2`, bottom `y2`,
with `width = x2 - x1 + 1` and `height = y2 - y1 + 1`. -/
structure QRect where
  x1 : Int
  y1 : Int
  x2 : Int
  y2 : Int

/-- `QRect(topLeft, bottomRight)`. -/
def QRect.fromPoints (topLeft bottomRight : QPoint) : QRect :=
  ⟨topLeft.x, topLeft.y, bottomRight.x, bottomRight.y⟩

def QRect.width (r : QRect) : Int := r.x2 - r.x1 + 1

def QRect.height (r : QRect) : Int := r.y2 - r.y1 + 1

/-- Qt5's `QRect::normalized()`: swap left and right when `x2 < x1 - 1`,
swap top and bottom when `y2 < y1 - 1` (negative-size rectangles are
flipped; zero- and positive-size ones are kept as they are). -/
def QRect.normalized (r : QRect) : QRect :=
  { x1 := if r.x2 < r.x1 - 1 then r.x2 else r.x1,
    x2 := if r.x2 < r.x1 - 1 then r.x1 else r.x2,
    y1 := if r.y2 < r.y1 - 1 then r.y2 else r.y1,
    y2 := if r.y2 < r.y1 - 1 then r.y1 else r.y2 }

inductive MouseButton where
  | left
  | right
  | middle
deriving DecidableEq

structure MouseEvent where
  button : MouseButton
  pos : QPoint

/-- The mutable state of a `RegionSelector` that the mouse handlers touch. -/
structure SelectorState where
  origin : QPoint
  current : QPoint
  selecting : Bool
  closed : Bool

/-- The signal a mouse-release handler run emits, if any. -/
inductive SelectorOutcome where
  | region_selected (r : QRect)
  | selection_cancelled
  | no_signal

/-- `RegionSelector.mouseReleaseEvent`: on a left-button release while
selecting, stop selecting, normalize the rectangle between the origin and the
current point, close the overlay, then emit `region_selected rect` when both
dimensions exceed 5 and `selection_cancelled` otherwise; any other event
does nothing. -/
def mouseReleaseEvent (s : SelectorState) (e : MouseEvent) :
    SelectorState × SelectorOutcome :=
  if e.button = MouseButton.left ∧ s.selecting = true then
    let rect := (QRect.fromPoints s.origin s.current).normalized
    ({ s with selecting := false, closed := true },
      if rect.width > 5 ∧ rect.height > 5 then .region_selected rect
      else .selection_cancelled)
  else (s, .no_signal)

/-- C2: for a left-button release ending a selection drag, when the
normalized rectangle between the origin and the current point has width at
most 5 or height at most 5 the handler emits the cancellation signal and
never a commit; when both exceed 5 it emits the commit signal carrying
exactly that normalized rectangle (in overlay-local coordinates). -/
theorem mouseRelease_min_size (s : SelectorState) (e : MouseEvent)
    (hsel : s.selecting = true) (hbtn : e.button = MouseButton.left)
    (rect : QRect) (hrect : rect = (QRect.fromPoints s.origin s.current).normalized) :
    ((rect.width ≤ 5 ∨ rect.height ≤ 5) →
      (mouseReleaseEvent s e).2 = .selection_cancelled ∧
      ∀ r', (mouseReleaseEvent s e).2 ≠ .region_selected r') ∧
    ((rect.width > 5 ∧ rect.height > 5) →
      (mouseReleaseEvent s e).2 = .region_selected rect) := by
  unfold mouseReleaseEvent
  rw [if_pos ⟨hbtn, hsel⟩]
  dsimp only
  subst hrect
  constructor
  · intro hsmall
    rw [if_neg (by omega)]
    exact ⟨rfl, fun r' h => SelectorOutcome.noConfusion h⟩
  · intro hbig
    rw [if_pos hbig]

/-- Witness for C2: a drag from (0,0) to (10,10) commits its normalized
rectangle; the hypotheses are discharged at this concrete state. -/
theorem mouseRelease_min_size_witness :
    (((QRect.fromPoints ⟨0, 0⟩ ⟨10, 10⟩).normalized.width ≤ 5 ∨
      (QRect.fromPoints ⟨0, 0⟩ ⟨10, 10⟩).normalized.height ≤ 5) →
      (mouseReleaseEvent ⟨⟨0, 0⟩, ⟨10, 10⟩, true, false⟩ ⟨MouseButton.left, ⟨10, 10⟩⟩).2 =
        .selection_cancelled ∧
      ∀ r', (mouseReleaseEvent ⟨⟨0, 0⟩, ⟨10, 10⟩, true, false⟩
        ⟨MouseButton.left, ⟨10, 10⟩⟩).2 ≠ .region_selected r') ∧
    (((QRect.fromPoints ⟨0, 0⟩ ⟨10, 10⟩).normalized.width > 5 ∧
      (QRect.fromPoints ⟨0, 0⟩ ⟨10, 10⟩).normalized.height > 5) →
      (mouseReleaseEvent ⟨⟨0, 0⟩, ⟨10, 10⟩, true, false⟩ ⟨MouseButton.left, ⟨10, 10⟩⟩).2 =
        .region_selected (QRect.fromPoints ⟨0, 0⟩ ⟨10, 10⟩).normalized) :=
  mouseRelease_min_size ⟨⟨0, 0⟩, ⟨10, 10⟩, true, false⟩ ⟨MouseButton.left, ⟨10, 10⟩⟩
    rfl rfl (QRect.fromPoints ⟨0, 0⟩ ⟨10, 10⟩).normalized rfl

/-! ### `save_screenshot` (persistence helper) -/

/-- Black-box outcomes of the external encode/write libraries for one call:
whether `QPixmap.save` reports success (PNG branch), and whether the PIL
JPEG encode/write raises (JPEG branch failures surface as exceptions, not
return values). -/
structure SaveEnv where
  qpixmapSaveOk : Bool
  pilSaveRaises : Bool

/-- `save_screenshot`: build the timestamped path; in the PNG branch a failed
`QPixmap.save` returns none; in every other branch PIL's `Image.save` either
succeeds or raises `OSError`, and the function installs no handler, so the
exception escapes instead of becoming a none return. On success the path is
returned (after the clipboard copy). -/
def save_screenshot (env : SaveEnv) (cfg : Cfg) (dt : DateTime) :
    Except PyError (Option (List Char)) :=
  let filename := generate_filename dt cfg
  let out_path := cfg.save_directory.data ++ ('/' :: filename)
  if cfg.format = "png" then
    if env.qpixmapSaveOk then .ok (some out_path) else .ok none
  else
    if env.pilSaveRaises then .error "OSError" else .ok (some out_path)

/-- The callers (`do_fullscreen_capture`, `do_window_capture`, the region
handler) show the notification only when a path came back. -/
def notifies (res : Except PyError (Option (List Char))) : Bool :=
  match res with
  | .ok (some _) => true
  | _ => false

/-- C5 (code bug): in the JPEG branch an encode/write failure raises an
uncaught `OSError` out of `save_screenshot` instead of producing the none
return its own docstring promises; no notification fires either way. The PNG
branch does return none on failure, as the claim states. -/
theorem save_screenshot_jpeg_failure_raises :
    save_screenshot ⟨true, true⟩ ⟨"jpg", "/tmp/shots", 95⟩ dtW = .error "OSError" ∧
    notifies (save_screenshot ⟨true, true⟩ ⟨"jpg", "/tmp/shots", 95⟩ dtW) = false ∧
    save_screenshot ⟨false, false⟩ ⟨"png", "/tmp/shots", 95⟩ dtW = .ok none ∧
    notifies (save_screenshot ⟨false, false⟩ ⟨"png", "/tmp/shots", 95⟩ dtW) = false :=
  ⟨rfl, rfl, rfl, rfl⟩

/-! ### Pre-capture machinery

The specification (sections 3, 4.2 and 4.4) and the repository's test suite
describe `pre_capture` parameters on the capture entry points, a
`pixmap_from_pre_capture` conversion and a `pre_capture` slot on
`HotkeyListener`; `src/screenshot_tool.py` itself contains none of them (its
`capture_fullscreen`/`capture_window` take only the settings), so these
definitions are modelled from the spec. -/

/-- A pre-capture packet `(raw_pixels, width, height, virtual_origin_x,
virtual_origin_y)`. -/
structure PrePacket where
  raw : List Nat
  width : Int
  height : Int
  vx : Int
  vy : Int

/-- An in-memory bitmap, identified abstractly; `isNull` mirrors
`QPixmap.isNull()`. -/
structure Pixmap where
  isNull : Bool
  pixelId : Nat

/-- Translate a screen-coordinate window rectangle into desktop-local
coordinates by subtracting the virtual-desktop origin. -/
def translateRect (w geo : QRect) : QRect :=
  ⟨w.x1 - geo.x1, w.y1 - geo.y1, w.x2 - geo.x1, w.y2 - geo.y1⟩

/-- Modelled from the spec: the black-box platform collaborators one capture
call observes — the live-grab result, the virtual-desktop geometry, the
foreground-window rectangle, the `pixmap_from_pre_capture` conversion, the
crop primitive and the persistence outcome per bitmap. -/
structure CapEnv where
  grabResult : Option Pixmap
  virtualGeo : QRect
  fgRect : Option QRect
  convert : PrePacket → Pixmap × QRect
  crop : Pixmap → QRect → Pixmap
  saveResult : Pixmap → Cfg → Option (List Char)

/-- Modelled from the spec (section 4.2): `capture_fullscreen(settings,
pre_capture=None)` — the `pre_capture` parameter is absent from the
`capture_fullscreen` in `src/screenshot_tool.py` and comes from the spec and
the tests. Uses the packet if supplied (converting it), else a live grab;
returns none when the source bitmap is missing or null, else the save
outcome. -/
def capture_fullscreen (env : CapEnv) (cfg : Cfg) (pre : Option PrePacket) :
    Option (List Char) :=
  let pm : Option Pixmap :=
    match pre with
    | some packet => some (env.convert packet).1
    | none => env.grabResult
  match pm with
  | some q => if q.isNull then none else env.saveResult q cfg
  | none => none

/-- Modelled from the spec (section 4.2): `capture_window(settings,
pre_capture=None)` — the fallback branch matches the `capture_window` in
`src/screenshot_tool.py`, whose signature however lacks `pre_capture`; the
forwarding comes from the spec and the tests. With no foreground rectangle it
degrades to `capture_fullscreen`, forwarding the packet unchanged; otherwise
it captures the desktop (pre-captured or live), translates the window
rectangle into desktop-local coordinates, crops and saves. -/
def capture_window (env : CapEnv) (cfg : Cfg) (pre : Option PrePacket) :
    Option (List Char) :=
  match env.fgRect with
  | none => capture_fullscreen env cfg pre
  | some winRect =>
    let pmGeo : Option (Pixmap × QRect) :=
      match pre with
      | some packet => some (env.convert packet)
      | none => env.grabResult.map (fun q => (q, env.virtualGeo))
    match pmGeo with
    | none => none
    | some (q, geo) =>
      if q.isNull then none
      else env.saveResult (env.crop q (translateRect winRect geo)) cfg

/-- C3: with no resolvable foreground-window rectangle, `capture_window` is
the very call `capture_fullscreen` would be — same environment, same
settings, the optional pre-capture packet forwarded unchanged — and returns
that call's result. -/
theorem capture_window_fallback (env : CapEnv) (cfg : Cfg)
    (pre : Option PrePacket) (h : env.fgRect = none) :
    capture_window env cfg pre = capture_fullscreen env cfg pre := by
  unfold capture_window
  rw [h]

/-- A concrete environment with no foreground window, for the C3 witness. -/
def envNoWindow : CapEnv :=
  { grabResult := some ⟨false, 7⟩,
    virtualGeo := ⟨0, 0, 1919, 1079⟩,
    fgRect := none,
    convert := fun _ => (⟨false, 8⟩, ⟨0, 0, 1919, 1079⟩),
    crop := fun q _ => q,
    saveResult := fun _ _ => some "/tmp/s.png".data }

/-- Witness for C3 with a pre-capture packet supplied. -/
theorem capture_window_fallback_witness :
    capture_window envNoWindow ⟨"png", "/tmp", 95⟩ (some ⟨[0, 1, 2, 3], 2, 2, 0, 0⟩) =
      capture_fullscreen envNoWindow ⟨"png", "/tmp", 95⟩ (some ⟨[0, 1, 2, 3], 2, 2, 0, 0⟩) :=
  capture_window_fallback envNoWindow ⟨"png", "/tmp", 95⟩
    (some ⟨[0, 1, 2, 3], 2, 2, 0, 0⟩) rfl

/-- Modelled from the spec (sections 3 and 4.4): the listener state the
pre-capture handoff touches — the single-slot field plus the running flag the
source listener does carry. -/
structure HotkeyListenerState where
  pre_capture : Option PrePacket
  running : Bool

/-- Modelled from the spec: a freshly constructed listener — the slot starts
empty. -/
def initListener : HotkeyListenerState := ⟨none, true⟩

/-- Modelled from the spec: the hotkey thread stores a fresh packet in the
single slot (last write wins). -/
def setPreCapture (st : HotkeyListenerState) (v : PrePacket) : HotkeyListenerState :=
  { st with pre_capture := some v }

/-- Modelled from the spec: the UI thread's read-and-clear consume of the
slot, returning the packet (if any) and the emptied state. -/
def consumePreCapture (st : HotkeyListenerState) :
    Option PrePacket × HotkeyListenerState :=
  (st.pre_capture, { st with pre_capture := none })

/-- C4: setting the slot to `v` and consuming returns `v` and leaves the slot
empty; consuming an empty slot — a fresh listener, or any state right after a
consume — returns nothing and leaves it empty, so the empty read is
idempotent. -/
theorem pre_capture_consume (st : HotkeyListenerState) (v : PrePacket) :
    (consumePreCapture (setPreCapture st v)).1 = some v ∧
    (consumePreCapture (setPreCapture st v)).2.pre_capture = none ∧
    (consumePreCapture (consumePreCapture st).2).1 = none ∧
    (consumePreCapture (consumePreCapture st).2).2.pre_capture = none ∧
    (consumePreCapture initListener).1 = none ∧
    (consumePreCapture initListener).2.pre_capture = none :=
  ⟨rfl, rfl, rfl, rfl, rfl, rfl⟩

end PortableScreenshot
